import Mathlib

/-!
Shallow embedding of `humans-for-housing-video-player`
(`src/humans_for_housing_video_player/main.py`).

The program runs two worker threads communicating through a FIFO queue:

* `input_reader_thread` discovers keyboard devices, filters their raw
  reports to space-key presses (`process_device_events`) and enqueues a
  timestamp per press;
* `video_control_thread` is a two-state playback controller: it polls the
  queue (one `get` with timeout per loop iteration), then polls the VLC
  player state, switching between a looping clip and a trigger clip.

We embed the controller loop body as a pure step function on an explicit
state (`ControlState`), producing a record of the observable effects of one
iteration (`StepOut`): the player commands issued, the events dequeued and
whether the error message was printed.  The player state observed at each
iteration is an input to the step (the VLC player is an external
collaborator).  `video_control_run` iterates the step over a list of
observed player states.  Startup helpers (`find_video_files`,
`find_keyboard_devices`, `process_device_events`) are translated directly
from the source.
-/

/-- A trigger event is a timestamp; we model timestamps as naturals. -/
abbrev Event := Nat

/-- The two pre-loaded media of `video_control_thread`:
`looping_media` and `trigger_media`. -/
inductive Clip
  | loopClip
  | triggerClip
  deriving DecidableEq, Repr

/-- The VLC player commands issued by the controller
(`vlc_player.stop()`, `vlc_player.set_media(...)`, `vlc_player.play()`). -/
inductive Cmd
  | stop
  | setMedia (c : Clip)
  | play
  deriving DecidableEq, Repr

/-- The coarse player state returned by `vlc_player.get_state()`, as far as
the control loop distinguishes it (`vlc.State.Ended`, `vlc.State.Error`,
anything else behaves like `Playing`). -/
inductive PlayerState
  | Playing
  | Ended
  | Error
  deriving DecidableEq, Repr

/-- The state of the playback controller between loop iterations:
the `playing_trigger` flag, the contents of `event_queue` (front of the
list is the next element `get` returns), and whether the loop has been
left via `break` (after which nothing further happens). -/
structure ControlState where
  playingTrigger : Bool
  queue : List Event
  halted : Bool
  deriving DecidableEq, Repr

/-- The observable effects of one iteration of the control loop. -/
structure StepOut where
  cmds : List Cmd
  dequeued : List Event
  errorLogged : Bool
  deriving DecidableEq, Repr

/-- The body of `if not playing_trigger:` after a successful
`event_queue.get`: when the trigger clip is not playing, stop, load the
trigger media, play it and set the flag; otherwise do nothing. Returns the
new `playing_trigger` flag and the commands issued. -/
def handleEvent (playingTrigger : Bool) : Bool × List Cmd :=
  if playingTrigger then
    (playingTrigger, [])
  else
    (true, [Cmd.stop, Cmd.setMedia Clip.triggerClip, Cmd.play])

/-- One iteration of the `while True` loop of `video_control_thread`:
first try to dequeue one event (the `try: event_queue.get(...)` block),
then check the player state (`Ended` reloads a clip chosen from the current
`playing_trigger` flag; `Error` prints to stderr and breaks the loop, after
which the final `vlc_player.stop()` runs).  A halted controller does
nothing. -/
def video_control_step (s : ControlState) (ps : PlayerState) :
    ControlState × StepOut :=
  if s.halted then
    (s, ⟨[], [], false⟩)
  else
    let (s1, cmds1, got) :=
      match s.queue with
      | [] => (s, ([] : List Cmd), ([] : List Event))
      | e :: rest =>
          let (pt, cs) := handleEvent s.playingTrigger
          ({ s with playingTrigger := pt, queue := rest }, cs, [e])
    match ps with
    | PlayerState.Playing => (s1, ⟨cmds1, got, false⟩)
    | PlayerState.Ended =>
        if s1.playingTrigger then
          ({ s1 with playingTrigger := false },
           ⟨cmds1 ++ [Cmd.setMedia Clip.loopClip, Cmd.play], got, false⟩)
        else
          (s1, ⟨cmds1 ++ [Cmd.setMedia Clip.loopClip, Cmd.play], got, false⟩)
    | PlayerState.Error =>
        ({ s1 with halted := true },
         ⟨cmds1 ++ [Cmd.stop], got, true⟩)

/-- Iterate `video_control_step` over a list of observed player states,
collecting the per-iteration outputs. -/
def video_control_run (s : ControlState) :
    List PlayerState → ControlState × List StepOut
  | [] => (s, [])
  | ps :: rest =>
      let (s1, o) := video_control_step s ps
      let (s2, os) := video_control_run s1 rest
      (s2, o :: os)

/-- The controller state at the top of the loop: `playing_trigger = False`,
the queue holding whatever events were enqueued before the loop started. -/
def initState (q : List Event) : ControlState := ⟨false, q, false⟩

/-- The commands issued before the loop starts:
`vlc_player.set_media(looping_media); vlc_player.play()`. -/
def initCmds : List Cmd := [Cmd.setMedia Clip.loopClip, Cmd.play]

/-- `event_queue.put`: the queue is FIFO, `put` appends at the back. -/
def put (c : List Event) (e : Event) : List Event := c ++ [e]

/-- Enqueue a sequence of events in order. -/
def putAll (c : List Event) (es : List Event) : List Event := es.foldl put c

/-- A raw input report as the control flow of `process_device_events` sees
it: the event type (`event.type`), the keycode name(s) of the categorized
key event (`key_event.keycode`, a list when several keycodes are mapped —
we always model it as the normalized list), and the key state
(`key_event.keystate`: 0 release, 1 press, 2 hold). -/
structure KeyReport where
  type : Nat
  keycodes : List (List Char)
  keystate : Nat
  deriving DecidableEq, Repr

/-- `ecodes.EV_KEY`. -/
def EV_KEY : Nat := 1

/-- The keycode name compared against: `"KEY_SPACE"`. -/
def KEY_SPACE_NAME : List Char := "KEY_SPACE".toList

/-- `process_device_events`: walk the drained reports of one device; skip
non-key reports; for a key report enqueue the current timestamp exactly
when `"KEY_SPACE" in keycodes and key_event.keystate == 1`.  The clock
`now` advances by one per report processed; the returned list is what got
enqueued, in order. -/
def process_device_events (now : Nat) : List KeyReport → List Event
  | [] => []
  | r :: rs =>
      if r.type ≠ EV_KEY then
        process_device_events (now + 1) rs
      else if KEY_SPACE_NAME ∈ r.keycodes ∧ r.keystate = 1 then
        now :: process_device_events (now + 1) rs
      else
        process_device_events (now + 1) rs

/-- An input device as `find_keyboard_devices` inspects it: its name and
its `EV_KEY` capability list (`device.capabilities().get(ecodes.EV_KEY, [])`). -/
structure Device where
  name : List Char
  keyCapabilities : List Nat
  deriving DecidableEq, Repr

/-- `ecodes.KEY_SPACE`. -/
def KEY_SPACE : Nat := 57

/-- `find_keyboard_devices`: keep the devices whose `EV_KEY` capabilities
contain `KEY_SPACE`. -/
def find_keyboard_devices (devs : List Device) : List Device :=
  devs.filter (fun d => d.keyCapabilities.contains KEY_SPACE)

/-- What `input_reader_thread` does before entering its monitoring loop:
either it finds no keyboard device, prints the error and returns — having
enqueued nothing and grabbed nothing — or it proceeds to grab and monitor
the keyboards it found (the infinite monitoring loop itself is not needed
by any claim). -/
inductive ReaderStart
  | aborted (errorLogged : Bool) (enqueued : List Event) (grabbed : List Device)
  | monitoring (keyboards : List Device)
  deriving DecidableEq, Repr

/-- The startup phase of `input_reader_thread` (lines 95–106): discover
keyboards; `if not devices:` print the error and return before any
`queue.put` or `device.grab()` happens. -/
def input_reader_start (devs : List Device) : ReaderStart :=
  let keyboards := find_keyboard_devices devs
  if keyboards.isEmpty then
    ReaderStart.aborted true [] []
  else
    ReaderStart.monitoring keyboards

/-- A directory entry as `find_video_files` inspects it: its name and
whether `file.is_file()` holds. -/
structure MFile where
  name : List Char
  isFile : Bool
  deriving DecidableEq, Repr

/-- `file.name.upper()`. -/
def nameUpper (f : MFile) : List Char := f.name.map Char.toUpper

/-- `"LOOP"` as the character list compared against the uppercased name. -/
def LOOP_STR : List Char := "LOOP".toList

/-- `"TRIGGER"` as the character list compared against the uppercased name. -/
def TRIGGER_STR : List Char := "TRIGGER".toList

/-- Whether `pat` occurs at the start of `s`. -/
def startsWith : List Char → List Char → Bool
  | [], _ => true
  | _ :: _, [] => false
  | p :: ps, c :: cs => p == c && startsWith ps cs

/-- Python's `pat in s` on strings: `pat` occurs contiguously in `s`. -/
def containsSeq (pat : List Char) : List Char → Bool
  | [] => startsWith pat []
  | c :: cs => startsWith pat (c :: cs) || containsSeq pat cs

/-- The body of the `for file in MOVIES_DIR.iterdir()` loop of
`find_video_files`, acting on the accumulator
`(looping_video, trigger_video)`: skip non-files; if `"LOOP" in
name_upper` record the file as the looping video; `elif "TRIGGER" in
name_upper` record it as the trigger video. -/
def scanStep (acc : Option MFile × Option MFile) (f : MFile) :
    Option MFile × Option MFile :=
  if !f.isFile then
    acc
  else if containsSeq LOOP_STR (nameUpper f) then
    (some f, acc.2)
  else if containsSeq TRIGGER_STR (nameUpper f) then
    (acc.1, some f)
  else
    acc

/-- `find_video_files` on the directory listing: fold the loop body over
the entries starting from `(None, None)`; returns
`(looping_video, trigger_video)`. -/
def find_video_files (files : List MFile) : Option MFile × Option MFile :=
  files.foldl scanStep (none, none)

/-! ## Theorems -/

/-- A halted controller does nothing: no commands, no dequeue, no change. -/
theorem run_halted (s : ControlState) (pss : List PlayerState)
    (hh : s.halted = true) :
    video_control_run s pss = (s, List.replicate pss.length ⟨[], [], false⟩) := by
  induction pss with
  | nil => rfl
  | cons ps rest ih =>
      simp [video_control_run, video_control_step, hh, ih, List.replicate_succ]

/-- Claim C2: when the controller is Idle (`playing_trigger = False`), an
event is available on the queue and the player is still playing, the loop
iteration dequeues the event, issues stop, loads the trigger media, plays
it, and the state becomes Triggered. -/
theorem idle_event_triggers (s : ControlState) (e : Event) (rest : List Event)
    (hh : s.halted = false) (hp : s.playingTrigger = false)
    (hq : s.queue = e :: rest) :
    video_control_step s PlayerState.Playing =
      (⟨true, rest, false⟩,
       ⟨[Cmd.stop, Cmd.setMedia Clip.triggerClip, Cmd.play], [e], false⟩) := by
  cases s with
  | mk pt q h =>
      cases hh
      cases hp
      cases hq
      simp [video_control_step, handleEvent]

/-- Witness for `idle_event_triggers` at a concrete Idle state holding one
event. -/
theorem idle_event_triggers_witness :
    video_control_step ⟨false, [5], false⟩ PlayerState.Playing =
      (⟨true, [], false⟩,
       ⟨[Cmd.stop, Cmd.setMedia Clip.triggerClip, Cmd.play], [5], false⟩) :=
  idle_event_triggers ⟨false, [5], false⟩ 5 [] rfl rfl rfl

/-- Claim C3: when the controller is already Triggered
(`playing_trigger = True`) and an event is dequeued while the trigger clip
is playing, the event is consumed and discarded: no player command is
issued and the state stays Triggered. -/
theorem triggered_event_ignored (s : ControlState) (e : Event)
    (rest : List Event) (hh : s.halted = false) (hp : s.playingTrigger = true)
    (hq : s.queue = e :: rest) :
    video_control_step s PlayerState.Playing =
      (⟨true, rest, false⟩, ⟨[], [e], false⟩) := by
  cases s with
  | mk pt q h =>
      cases hh
      cases hp
      cases hq
      simp [video_control_step, handleEvent]

/-- Witness for `triggered_event_ignored` at a concrete Triggered state
holding one event. -/
theorem triggered_event_ignored_witness :
    video_control_step ⟨true, [7], false⟩ PlayerState.Playing =
      (⟨true, [], false⟩, ⟨[], [7], false⟩) :=
  triggered_event_ignored ⟨true, [7], false⟩ 7 [] rfl rfl rfl

/-- Claim C4: whenever the controller is Triggered and the player reports
Ended, the iteration loads the looping media, plays it, and the state
returns to Idle (any event dequeued in the same iteration is ignored as in
the Triggered state). -/
theorem triggered_ended_returns_idle (s : ControlState)
    (hh : s.halted = false) (hp : s.playingTrigger = true) :
    video_control_step s PlayerState.Ended =
      (⟨false, s.queue.tail, false⟩,
       ⟨[Cmd.setMedia Clip.loopClip, Cmd.play], s.queue.take 1, false⟩) := by
  cases s with
  | mk pt q h =>
      cases hh
      cases hp
      cases q with
      | nil => simp [video_control_step]
      | cons e rest => simp [video_control_step, handleEvent]

/-- Witness for `triggered_ended_returns_idle` at the concrete Triggered
state with an empty queue. -/
theorem triggered_ended_returns_idle_witness :
    video_control_step ⟨true, [], false⟩ PlayerState.Ended =
      (⟨false, [], false⟩,
       ⟨[Cmd.setMedia Clip.loopClip, Cmd.play], [], false⟩) :=
  triggered_ended_returns_idle ⟨true, [], false⟩ rfl rfl

/-- Claim C5: in any non-halted state, observing player state Error logs
the error, halts the loop and (via the `break` followed by the final
`vlc_player.stop()`) makes stop the last player command; and a halted
controller issues no further command and performs no further transition,
however long the run continues. -/
theorem error_halts_controller :
    (∀ s : ControlState, s.halted = false →
       (video_control_step s PlayerState.Error).1.halted = true ∧
       (video_control_step s PlayerState.Error).2.errorLogged = true ∧
       (video_control_step s PlayerState.Error).2.cmds.getLast? =
         some Cmd.stop) ∧
    (∀ (s : ControlState) (pss : List PlayerState), s.halted = true →
       video_control_run s pss =
         (s, List.replicate pss.length ⟨[], [], false⟩)) := by
  constructor
  · intro s hh
    cases s with
    | mk pt q h =>
        cases hh
        cases q with
        | nil => cases pt <;> simp [video_control_step, handleEvent]
        | cons e rest => cases pt <;> simp [video_control_step, handleEvent]
  · intro s pss hh
    exact run_halted s pss hh

/-- Witness for `error_halts_controller`: a concrete Idle state observing
Error, and a concrete halted state running one more iteration. -/
theorem error_halts_controller_witness :
    ((video_control_step ⟨false, [], false⟩ PlayerState.Error).1.halted =
       true ∧
     (video_control_step ⟨false, [], false⟩ PlayerState.Error).2.errorLogged =
       true ∧
     (video_control_step ⟨false, [], false⟩ PlayerState.Error).2.cmds.getLast? =
       some Cmd.stop) ∧
    video_control_run ⟨false, [], true⟩ [PlayerState.Playing] =
      (⟨false, [], true⟩, [⟨[], [], false⟩]) :=
  ⟨error_halts_controller.1 ⟨false, [], false⟩ rfl,
   error_halts_controller.2 ⟨false, [], true⟩ [PlayerState.Playing] rfl⟩

/-- Claim C7: from Idle with an empty queue, any number of consecutive
Ended reports each reload and replay the looping clip, the state stays
Idle every time and the controller never halts. -/
theorem idle_ended_idempotent (n : Nat) :
    video_control_run ⟨false, [], false⟩
        (List.replicate n PlayerState.Ended) =
      (⟨false, [], false⟩,
       List.replicate n ⟨[Cmd.setMedia Clip.loopClip, Cmd.play], [], false⟩) := by
  induction n with
  | zero => rfl
  | succ k ih =>
      simp only [List.replicate_succ, video_control_run]
      simp [video_control_step, ih]

/-- While Triggered and the player keeps playing, the controller drains its
queue one event per iteration, each silently, and ends Triggered with an
empty queue. -/
theorem run_triggered_drains (q : List Event) :
    video_control_run ⟨true, q, false⟩
        (List.replicate q.length PlayerState.Playing) =
      (⟨true, [], false⟩, q.map fun e => ⟨[], [e], false⟩) := by
  induction q with
  | nil => rfl
  | cons e rest ih =>
      simp only [List.length_cons, List.replicate_succ, video_control_run]
      simp [video_control_step, handleEvent, ih]

/-- Claim C1: starting Idle with `N ≥ 1` events already enqueued and the
player never reporting Ended, the first iteration dequeues the first event
and switches to the trigger clip (state Triggered); each of the remaining
`N − 1` iterations dequeues one of the remaining events and ignores it —
no command, state still Triggered — leaving the queue empty. -/
theorem idle_n_events_one_trigger (e : Event) (es : List Event) :
    video_control_run (initState (e :: es))
        (List.replicate (es.length + 1) PlayerState.Playing) =
      (⟨true, [], false⟩,
       ⟨[Cmd.stop, Cmd.setMedia Clip.triggerClip, Cmd.play], [e], false⟩ ::
         es.map fun e2 => ⟨[], [e2], false⟩) := by
  rw [List.replicate_succ]
  simp only [video_control_run, initState]
  simp [video_control_step, handleEvent, run_triggered_drains]

/-- Appending events one by one to an empty FIFO queue yields exactly that
sequence. -/
theorem putAll_eq_append (c : List Event) (es : List Event) :
    putAll c es = c ++ es := by
  induction es generalizing c with
  | nil => simp [putAll]
  | cons e rest ih =>
      simp only [putAll, List.foldl_cons] at *
      rw [show put c e = c ++ [e] from rfl, ih]
      simp

/-- One non-Error iteration consumes exactly the front of the queue and
keeps the controller alive. -/
theorem step_nonerror_queue (s : ControlState) (ps : PlayerState)
    (hh : s.halted = false) (hps : ps ≠ PlayerState.Error) :
    (video_control_step s ps).1.halted = false ∧
    (video_control_step s ps).1.queue = s.queue.tail ∧
    (video_control_step s ps).2.dequeued = s.queue.take 1 := by
  cases s with
  | mk pt q h =>
      cases hh
      cases ps with
      | Error => exact absurd rfl hps
      | Playing =>
          cases q with
          | nil => simp [video_control_step, handleEvent]
          | cons e rest => cases pt <;> simp [video_control_step, handleEvent]
      | Ended =>
          cases q with
          | nil => cases pt <;> simp [video_control_step, handleEvent]
          | cons e rest => cases pt <;> simp [video_control_step, handleEvent]

/-- Over any Error-free run long enough to look at the whole queue, the
events the controller dequeues are exactly the queue contents in order. -/
theorem run_dequeues_queue (pss : List PlayerState) :
    ∀ s : ControlState, s.halted = false → PlayerState.Error ∉ pss →
      s.queue.length ≤ pss.length →
      ((video_control_run s pss).2.map StepOut.dequeued).flatten = s.queue := by
  induction pss with
  | nil =>
      intro s hh _ hlen
      have : s.queue = [] := List.eq_nil_of_length_eq_zero (Nat.le_zero.mp hlen)
      simp [video_control_run, this]
  | cons ps rest ih =>
      intro s hh hE hlen
      have hps : ps ≠ PlayerState.Error := fun h => hE (h ▸ List.mem_cons_self ps rest)
      have hrest : PlayerState.Error ∉ rest := fun h => hE (List.mem_cons_of_mem ps h)
      obtain ⟨h1, h2, h3⟩ := step_nonerror_queue s ps hh hps
      simp only [video_control_run]
      cases hstep : video_control_step s ps with
      | mk s1 o =>
          rw [hstep] at h1 h2 h3
          have hlen1 : s1.queue.length ≤ rest.length := by
            rw [h2]
            cases hq : s.queue with
            | nil => simp
            | cons a as =>
                rw [hq] at hlen
                simpa using Nat.le_of_succ_le_succ (by simpa using hlen)
          have := ih s1 h1 hrest hlen1
          cases hrun : video_control_run s1 rest with
          | mk s2 os =>
              rw [hrun] at this
              simp only at this h1 h2 h3
              simp only [List.map_cons, List.flatten_cons]
              rw [h3, this, h2]
              cases hq : s.queue <;> simp

/-- Claim C8: the Event Channel is FIFO and lossless — enqueueing
`e1, e2, …` in order and letting the controller run (no player error, at
least one iteration per event) makes the controller dequeue exactly that
sequence in that order, nothing lost, reordered or duplicated. -/
theorem fifo_events_in_order (es : List Event) (pss : List PlayerState)
    (hE : PlayerState.Error ∉ pss) (hlen : es.length ≤ pss.length) :
    ((video_control_run (initState (putAll [] es)) pss).2.map
        StepOut.dequeued).flatten = es := by
  have hq : putAll [] es = es := by simpa using putAll_eq_append [] es
  rw [hq]
  exact run_dequeues_queue pss (initState es) rfl hE hlen

/-- Witness for `fifo_events_in_order` with two events and two playing
iterations. -/
theorem fifo_events_in_order_witness :
    ((video_control_run (initState (putAll [] [1, 2]))
        [PlayerState.Playing, PlayerState.Playing]).2.map
        StepOut.dequeued).flatten = [1, 2] :=
  fifo_events_in_order [1, 2] [PlayerState.Playing, PlayerState.Playing]
    (by decide) (by decide)

/-- From Idle with an empty queue, any Error-free run leaves the
controller in exactly that state: still Idle, still running. -/
theorem run_idle_empty (pss : List PlayerState) :
    PlayerState.Error ∉ pss →
    (video_control_run (initState []) pss).1 = initState [] := by
  induction pss with
  | nil => intro _; rfl
  | cons ps rest ih =>
      intro hE
      have hrest : PlayerState.Error ∉ rest :=
        fun h => hE (List.mem_cons_of_mem ps h)
      cases ps with
      | Error => exact absurd (List.mem_cons_self _ _) hE
      | Playing =>
          simp only [video_control_run]
          simpa [video_control_step, initState] using ih hrest
      | Ended =>
          simp only [video_control_run]
          simpa [video_control_step, initState] using ih hrest

/-- Claim C9: when discovery yields zero space-capable devices, the input
reader logs the error and returns at once — nothing enqueued, nothing
grabbed, no retry — while the playback controller, left with an empty
queue and an Error-free player, keeps running its idle loop unchanged. -/
theorem no_keyboard_inert (devs : List Device)
    (h : find_keyboard_devices devs = [])
    (pss : List PlayerState) (hE : PlayerState.Error ∉ pss) :
    input_reader_start devs = ReaderStart.aborted true [] [] ∧
    (video_control_run (initState []) pss).1 = initState [] := by
  constructor
  · simp [input_reader_start, h]
  · exact run_idle_empty pss hE

/-- Witness for `no_keyboard_inert`: a single space-less device
(a mouse-like capability list) and one Ended iteration. -/
theorem no_keyboard_inert_witness :
    input_reader_start [⟨['m'], [0]⟩] = ReaderStart.aborted true [] [] ∧
    (video_control_run (initState []) [PlayerState.Ended]).1 = initState [] :=
  no_keyboard_inert [⟨['m'], [0]⟩] (by decide) [PlayerState.Ended] (by decide)

/-- The `trigger_video` slot of the scan can only hold a file whose
uppercased name does not contain `"LOOP"` — unless it was already in the
accumulator. -/
theorem trigger_slot_avoids_loop_names (files : List MFile) :
    ∀ (acc : Option MFile × Option MFile) (t : MFile),
      (files.foldl scanStep acc).2 = some t →
      acc.2 = some t ∨ containsSeq LOOP_STR (nameUpper t) = false := by
  induction files with
  | nil => intro acc t h; exact Or.inl h
  | cons f fs ih =>
      intro acc t h
      rw [List.foldl_cons] at h
      rcases ih (scanStep acc f) t h with h' | h'
      · by_cases hf : f.isFile = true
        · by_cases hl : containsSeq LOOP_STR (nameUpper f) = true
          · left
            simpa [scanStep, hf, hl] using h'
          · by_cases ht : containsSeq TRIGGER_STR (nameUpper f) = true
            · right
              have hft : f = t := by simpa [scanStep, hf, hl, ht] using h'
              simp only [Bool.not_eq_true] at hl
              rw [← hft]
              exact hl
            · left
              simpa [scanStep, hf, hl, ht] using h'
        · left
          simp only [Bool.not_eq_true] at hf
          simpa [scanStep, hf] using h'
      · exact Or.inr h'

/-- Claim C10: a file whose uppercased name contains both `"LOOP"` and
`"TRIGGER"` is classified by the scan as the looping video (leaving the
trigger slot untouched), and the resolved trigger video is never such a
file. -/
theorem loop_and_trigger_name_is_loop (files : List MFile) (f : MFile)
    (hf : f.isFile = true)
    (hl : containsSeq LOOP_STR (nameUpper f) = true)
    (ht : containsSeq TRIGGER_STR (nameUpper f) = true) :
    (∀ acc : Option MFile × Option MFile, scanStep acc f = (some f, acc.2)) ∧
    (find_video_files files).2 ≠ some f := by
  refine ⟨fun acc => by simp [scanStep, hf, hl], fun h => ?_⟩
  rcases trigger_slot_avoids_loop_names files (none, none) f h with h' | h'
  · exact Option.noConfusion h'
  · rw [hl] at h'
    exact Bool.noConfusion h'

/-- Witness for `loop_and_trigger_name_is_loop` on the lowercase name
`looptrigger.mp4` (exercising the case-insensitive comparison). -/
theorem loop_and_trigger_name_is_loop_witness :
    scanStep (none, none) ⟨"looptrigger.mp4".toList, true⟩ =
      (some ⟨"looptrigger.mp4".toList, true⟩, none) ∧
    (find_video_files [⟨"looptrigger.mp4".toList, true⟩]).2 ≠
      some ⟨"looptrigger.mp4".toList, true⟩ :=
  ⟨(loop_and_trigger_name_is_loop [⟨"looptrigger.mp4".toList, true⟩]
      ⟨"looptrigger.mp4".toList, true⟩ rfl (by decide) (by decide)).1
      (none, none),
   (loop_and_trigger_name_is_loop [⟨"looptrigger.mp4".toList, true⟩]
      ⟨"looptrigger.mp4".toList, true⟩ rfl (by decide) (by decide)).2⟩

/-- Claim C6: over any drained report list, exactly one event is enqueued
per report that is key-typed, names `KEY_SPACE` and has keystate 1
(pressed), and none for any other report; in particular `n` repeated
space-press reports enqueue exactly `n` events. -/
theorem space_press_enqueues_one :
    (∀ (now : Nat) (reports : List KeyReport),
       (process_device_events now reports).length =
         reports.countP (fun r =>
           decide (r.type = EV_KEY ∧ KEY_SPACE_NAME ∈ r.keycodes ∧
             r.keystate = 1))) ∧
    (∀ now n : Nat,
       (process_device_events now
           (List.replicate n ⟨EV_KEY, [KEY_SPACE_NAME], 1⟩)).length = n) := by
  constructor
  · intro now reports
    induction reports generalizing now with
    | nil => rfl
    | cons r rs ih =>
        by_cases h1 : r.type = EV_KEY
        · by_cases h2 : KEY_SPACE_NAME ∈ r.keycodes ∧ r.keystate = 1
          · simp [process_device_events, h1, h2, ih, List.countP_cons]
          · simp [process_device_events, h1, h2, ih, List.countP_cons]
        · simp [process_device_events, h1, ih, List.countP_cons]
  · intro now n
    induction n generalizing now with
    | zero => rfl
    | succ k ih =>
        simp [List.replicate_succ, process_device_events, ih]
